import Mathlib

/-!
Shallow embedding of the analytics layer of the job-market platform
(src/analytics.py, class JobAnalytics) together with the data model
(src/models/job.py, class Job).  The SQLAlchemy/SQL layer is modelled by
explicit list filtering over an in-memory store (a `List Job`); SQL
three-valued logic for `NULL` values is reproduced where it is observable
(`ILIKE` on a NULL column yields NULL, which a WHERE clause drops, also
under negation).  Python's `round` builtin (banker's rounding,
round-half-to-even) is modelled exactly on exact rationals.

The rational arithmetic used inside the executable definitions is written
with `Rat.divInt` (`qAdd`, `qSub`, `qMul`, `qDiv`, ...) because the
`Rat.add`/`Rat.mul`/... underlying the `ℚ` field instances are
`@[irreducible]` and do not evaluate under `decide`; the bridge lemmas
`qAdd_eq`, `qSub_eq`, `qMul_eq`, `qDiv_eq`, `qLtB_iff`, `qLeB_iff`,
`qMinB_eq`, `qMaxB_eq` prove that they are exactly the field operations
of `ℚ`, so nothing is lost semantically.
-/

namespace JobMarket

/-! ### Kernel-reducible rational arithmetic -/

/-- Addition on `ℚ` via `Rat.divInt`; provably equal to `a + b`. -/
def qAdd (a b : ℚ) : ℚ := Rat.divInt (a.num * b.den + b.num * a.den) (a.den * b.den)

/-- Subtraction on `ℚ` via `Rat.divInt`; provably equal to `a - b`. -/
def qSub (a b : ℚ) : ℚ := Rat.divInt (a.num * b.den - b.num * a.den) (a.den * b.den)

/-- Multiplication on `ℚ` via `Rat.divInt`; provably equal to `a * b`. -/
def qMul (a b : ℚ) : ℚ := Rat.divInt (a.num * b.num) (a.den * b.den)

/-- Division on `ℚ` via `Rat.divInt`; provably equal to `a / b`
(including the `b = 0 → 0` convention). -/
def qDiv (a b : ℚ) : ℚ := Rat.divInt (a.num * b.den) (a.den * b.num)

/-- Boolean strict order on `ℚ`; provably `a < b`. -/
def qLtB (a b : ℚ) : Bool := a.num * b.den < b.num * a.den

/-- Boolean order on `ℚ`; provably `a ≤ b`. -/
def qLeB (a b : ℚ) : Bool := a.num * b.den ≤ b.num * a.den

/-- Binary minimum on `ℚ` (Python `min` step); provably `min a b`. -/
def qMinB (a b : ℚ) : ℚ := if qLeB a b then a else b

/-- Binary maximum on `ℚ` (Python `max` step); provably `max a b`. -/
def qMaxB (a b : ℚ) : ℚ := if qLeB a b then b else a

theorem qAdd_eq (a b : ℚ) : qAdd a b = a + b := by
  rw [Rat.add_def]; simp [qAdd, Rat.normalize_eq_mkRat, Rat.mkRat_eq_divInt]

theorem qSub_eq (a b : ℚ) : qSub a b = a - b := by
  rw [Rat.sub_def]; simp [qSub, Rat.normalize_eq_mkRat, Rat.mkRat_eq_divInt]

theorem qMul_eq (a b : ℚ) : qMul a b = a * b := by
  rw [Rat.mul_def]; simp [qMul, Rat.normalize_eq_mkRat, Rat.mkRat_eq_divInt]

theorem qDiv_eq (a b : ℚ) : qDiv a b = a / b := by
  rcases eq_or_ne b 0 with rfl | hb
  · simp [qDiv]
  · have had : (a.den : ℚ) ≠ 0 := by exact_mod_cast a.den_nz
    have hbd : (b.den : ℚ) ≠ 0 := by exact_mod_cast b.den_nz
    have hbn : (b.num : ℚ) ≠ 0 := by exact_mod_cast Rat.num_ne_zero.mpr hb
    have ha : (a.num : ℚ) = a * a.den := (div_eq_iff had).mp (Rat.num_div_den a)
    have hb' : (b.num : ℚ) = b * b.den := (div_eq_iff hbd).mp (Rat.num_div_den b)
    rw [qDiv, Rat.divInt_eq_div]
    push_cast
    rw [div_eq_div_iff (mul_ne_zero had hbn) hb, ha, hb']
    ring

theorem qLtB_iff (a b : ℚ) : qLtB a b = true ↔ a < b := by
  simp [qLtB, Rat.lt_def]

theorem qLeB_iff (a b : ℚ) : qLeB a b = true ↔ a ≤ b := by
  simp [qLeB, Rat.le_def]

theorem qMinB_eq (a b : ℚ) : qMinB a b = min a b := by
  rw [qMinB, min_def]
  rcases le_or_lt a b with h | h
  · rw [if_pos ((qLeB_iff a b).mpr h), if_pos h]
  · rw [if_neg (by simpa [qLeB_iff] using not_le.mpr h), if_neg (not_le.mpr h)]

theorem qMaxB_eq (a b : ℚ) : qMaxB a b = max a b := by
  rw [qMaxB, max_def]
  rcases le_or_lt a b with h | h
  · rw [if_pos ((qLeB_iff a b).mpr h), if_pos h]
  · rw [if_neg (by simpa [qLeB_iff] using not_le.mpr h), if_neg (not_le.mpr h)]

/-- The computable floor `Rat.floor` agrees with `⌊·⌋`. -/
theorem ratFloor_eq_floor (q : ℚ) : q.floor = ⌊q⌋ := by
  rw [Rat.floor_def' q, Rat.floor_def]

end JobMarket

namespace JobMarket

/-! ### Data model -/

/-- The job record (src/models/job.py).  Only the columns read by the
analytics layer are modelled; `id`, `salary_text`, `description`, `url`
and the two timestamps are never read by any analytics operation. -/
structure Job where
  title : String
  company : String
  location : String
  salary_min : Option ℚ
  salary_max : Option ℚ
  skills : Option String
  remote : Option String
deriving Repr, DecidableEq

/-- A record is eligible for salary statistics when both salary bounds are
non-null: the filter `Job.salary_min.isnot(None), Job.salary_max.isnot(None)`
used by every aggregation query. -/
def eligibleB (j : Job) : Bool := j.salary_min.isSome && j.salary_max.isSome

/-- Midpoint salary `(job.salary_min + job.salary_max) / 2`.  The `getD`
defaults are immaterial: the expression is only used on eligible records. -/
def midpoint (j : Job) : ℚ := qDiv (qAdd (j.salary_min.getD 0) (j.salary_max.getD 0)) 2

/-- One half, written reducibly. -/
def qHalf : ℚ := Rat.divInt 1 2

/-- Python `round` on an exact rational: round-half-to-even, as the CPython
builtin does. -/
def pyRound (q : ℚ) : ℤ :=
  let f : ℤ := q.floor
  if qLtB (qSub q f) qHalf then f
  else if qLtB qHalf (qSub q f) then f + 1
  else if f % 2 = 0 then f else f + 1

/-- Python `round(x, 1)`: round to one decimal place, half to even. -/
def pyRound1 (q : ℚ) : ℚ := qDiv (pyRound (qMul q 10) : ℚ) 10

/-- Sum of a list of rationals (Python `sum`). -/
def qSum (l : List ℚ) : ℚ := l.foldr qAdd 0

/-- Arithmetic mean `sum(xs) / len(xs)`; `0` on the empty list (division
by zero in `ℚ`), though every use site guards non-emptiness. -/
def qMean (l : List ℚ) : ℚ := qDiv (qSum l) (l.length : ℚ)

/-- Python `min` over a non-empty list; `0` on the empty list. -/
def listMin (l : List ℚ) : ℚ :=
  match l with
  | [] => 0
  | x :: xs => xs.foldl qMinB x

/-- Python `max` over a non-empty list; `0` on the empty list. -/
def listMax (l : List ℚ) : ℚ :=
  match l with
  | [] => 0
  | x :: xs => xs.foldl qMaxB x

/-- Insertion step of an ascending sort on rationals (Python `sorted`). -/
def insAsc (x : ℚ) : List ℚ → List ℚ
  | [] => [x]
  | y :: ys => if qLeB y x then y :: insAsc x ys else x :: y :: ys

/-- Ascending sort on rationals, modelling Python's `sorted`. -/
def sortQAsc : List ℚ → List ℚ
  | [] => []
  | x :: xs => insAsc x (sortQAsc xs)

/-- Stable insertion for a descending sort: the new element passes an
element only when `ltB` holds of (new, old), i.e. when its key is strictly
smaller it keeps walking; with equal keys it stays in front, so elements
with equal keys keep their original relative order, exactly like Python's
stable `sorted(..., reverse=True)` and `heapq.nlargest`. -/
def insDesc {α : Type} (ltB : α → α → Bool) (x : α) : List α → List α
  | [] => [x]
  | y :: ys => if ltB x y then y :: insDesc ltB x ys else x :: y :: ys

/-- Stable descending sort with respect to the strict comparison `ltB`. -/
def sortDescBy {α : Type} (ltB : α → α → Bool) : List α → List α
  | [] => []
  | x :: xs => insDesc ltB x (sortDescBy ltB xs)

/-- Lower-casing of a string as a character list (ASCII, as SQL `ILIKE`
and SQLite `LIKE` are case-insensitive on ASCII only). -/
def lcList (s : String) : List Char := s.data.map Char.toLower

/-- Does the first list start with the second? -/
def startsWithCL : List Char → List Char → Bool
  | _, [] => true
  | [], _ :: _ => false
  | a :: as, b :: bs => (a = b) && startsWithCL as bs

/-- Does the first list contain the second as a contiguous sublist? -/
def hasSub : List Char → List Char → Bool
  | [], pat => pat.isEmpty
  | a :: t, pat => startsWithCL (a :: t) pat || hasSub t pat

/-- SQL `col ILIKE '%pat%'` on a non-null column: case-insensitive
substring containment. -/
def containsCI (hay pat : String) : Bool := hasSub (lcList hay) (lcList pat)

/-- The whitespace characters removed by Python's `str.strip()`. -/
def pyIsSpace (c : Char) : Bool :=
  c = ' ' || c = '\t' || c = '\n' || c = '\r' || c = '\x0b' || c = '\x0c'

/-- Python `str.strip()` on a character list. -/
def pyStrip (l : List Char) : List Char :=
  ((l.dropWhile pyIsSpace).reverse.dropWhile pyIsSpace).reverse

/-- Python `s.split(',')`: splitting on commas, keeping empty pieces
(`"".split(',') == [""]`). -/
def splitComma : List Char → List (List Char)
  | [] => [[]]
  | c :: cs =>
    if c = ',' then [] :: splitComma cs
    else
      match splitComma cs with
      | [] => [[c]]
      | t :: ts => (c :: t) :: ts

/-- The trimmed, non-empty skill tokens of one record:
`[skill.strip() for skill in job.skills.split(',')]` restricted to truthy
tokens (the `if skill:` check in the loop of `get_top_skills`). -/
def skillTokens (j : Job) : List String :=
  match j.skills with
  | none => []
  | some s => ((splitComma s.data).map (fun cs => String.mk (pyStrip cs))).filter
      (fun t => t ≠ "")

/-- First-occurrence deduplication, auxiliary (accumulates already-seen
elements). -/
def dedupFirstAux {α : Type} [DecidableEq α] (seen : List α) : List α → List α
  | [] => []
  | x :: xs => if x ∈ seen then dedupFirstAux seen xs
               else x :: dedupFirstAux (x :: seen) xs

/-- Deduplicate a list keeping the first occurrence of each element: the
iteration order of a Python `Counter` / dict over insertion order. -/
def dedupFirst {α : Type} [DecidableEq α] (l : List α) : List α := dedupFirstAux [] l

/-- Digit-grouping step working on a reversed digit list: after every
three digits insert a comma when more digits remain. -/
def commasRev : List Char → List Char
  | a :: b :: c :: d :: rest => a :: b :: c :: ',' :: commasRev (d :: rest)
  | l => l

/-- Python `f"{n:,}"` for a natural number: thousands separators. -/
def natCommas (n : ℕ) : String := String.mk ((commasRev (Nat.repr n).data.reverse).reverse)

/-- Python `f"{n:,}"` for an integer. -/
def intCommas (z : ℤ) : String := if z < 0 then "-" ++ natCommas z.natAbs else natCommas z.natAbs

/-! ### Analytics operations (src/analytics.py, class JobAnalytics)

The store is a `List Job`; each operation re-scans it, as each method
re-queries the database.  `get_total_jobs_count` is `List.length`. -/

/-- Result shape of `get_salary_insights`. -/
structure SalaryStats where
  count : ℕ
  avg_salary : ℤ
  min_salary : ℚ
  max_salary : ℚ
  median_salary : ℚ
deriving Repr, DecidableEq

/-- Truthiness-guarded filter: `if location: query = query.filter(...)`.
A `None` or empty-string argument leaves the query unchanged. -/
def optFilter (o : Option String) (p : String → Job → Bool) (j : Job) : Bool :=
  match o with
  | none => true
  | some s => if s = "" then true else p s j

/-- The records retrieved by `get_salary_insights`: eligible records
further filtered by the optional case-insensitive substring matches on
`location` and on `skills`.  A NULL `skills` column never matches
`Job.skills.ilike(...)` (SQL three-valued logic). -/
def insightsJobs (store : List Job) (location skill : Option String) : List Job :=
  ((store.filter eligibleB).filter
      (optFilter location (fun s j => containsCI j.location s))).filter
    (optFilter skill (fun s j =>
      match j.skills with
      | none => false
      | some t => containsCI t s))

/-- `JobAnalytics.get_salary_insights(location, skill)`. -/
def get_salary_insights (store : List Job) (location skill : Option String) :
    SalaryStats :=
  let jobs := insightsJobs store location skill
  if jobs.isEmpty then ⟨0, 0, 0, 0, 0⟩
  else
    let salaries := jobs.map midpoint
    ⟨jobs.length,
     pyRound (qMean salaries),
     listMin salaries,
     listMax salaries,
     (sortQAsc salaries).getD (salaries.length / 2) 0⟩

/-- Group the records of `l` by the exact (unnormalised) value of `key`,
groups listed in first-occurrence order.  Models SQL `GROUP BY`. -/
def groupsBy {κ : Type} [DecidableEq κ] (key : Job → κ) (l : List Job) :
    List (κ × List Job) :=
  (dedupFirst (l.map key)).map (fun k => (k, l.filter (fun j => key j = k)))

/-- Result shape of `get_salary_by_location` entries. -/
structure LocationEntry where
  location : String
  job_count : ℕ
  avg_salary : ℤ
deriving Repr, DecidableEq

/-- `round(avg_sal) if avg_sal else 0`: Python truthiness treats the
float `0.0` as falsy (the two branches agree there, since
`round(0.0) == 0`). -/
def truthyRound (q : ℚ) : ℤ := if q = 0 then 0 else pyRound q

/-- `JobAnalytics.get_salary_by_location()`: eligible records grouped by
exact `location`, ordered by average midpoint salary descending. -/
def get_salary_by_location (store : List Job) : List LocationEntry :=
  let groups := (groupsBy (fun j => j.location) (store.filter eligibleB)).map
    (fun g => (g.1, g.2.map midpoint))
  (sortDescBy (fun a b => qLtB (qMean a.2) (qMean b.2)) groups).map
    (fun g => ⟨g.1, g.2.length, truthyRound (qMean g.2)⟩)

/-- Result shape of `get_top_skills` entries. -/
structure SkillEntry where
  skill : String
  job_count : ℕ
  avg_salary : ℤ
  percentage : ℚ
deriving Repr, DecidableEq

/-- The population of `get_top_skills`: records with non-null `skills`
and both salary bounds non-null (`Job.skills.isnot(None)` plus the
salary filters). -/
def tsJobs (store : List Job) : List Job :=
  store.filter (fun j => j.skills.isSome && eligibleB j)

/-- All (record, token) skill occurrences, in iteration order: the
`all_skills` list built by the double loop of `get_top_skills`. -/
def allOccurrences (store : List Job) : List String :=
  (tsJobs store).flatMap skillTokens

/-- Occurrence count of one skill (`Counter(all_skills)[s]`). -/
def occCount (store : List Job) (s : String) : ℕ :=
  (allOccurrences store).count s

/-- The salary sample of one skill: one midpoint contribution per
occurrence (`skill_salaries[s]`, appended once per mention). -/
def skillSample (store : List Job) (s : String) : List ℚ :=
  (tsJobs store).flatMap
    (fun j => ((skillTokens j).filter (fun t => t = s)).map (fun _ => midpoint j))

/-- `Counter(all_skills).most_common(limit)`: (skill, count) pairs ranked
by count descending, ties kept in first-encounter order (`heapq.nlargest`
is equivalent to a stable descending sort), truncated to `limit`. -/
def mostCommon (store : List Job) (limit : ℕ) : List (String × ℕ) :=
  (sortDescBy (fun a b => a.2 < b.2)
      ((dedupFirst (allOccurrences store)).map (fun s => (s, occCount store s)))).take
    limit

/-- `JobAnalytics.get_top_skills(limit)`. -/
def get_top_skills (store : List Job) (limit : ℕ) : List SkillEntry :=
  (mostCommon store limit).filterMap (fun p =>
    if (skillSample store p.1).isEmpty then none
    else some
      ⟨p.1, p.2,
       pyRound (qMean (skillSample store p.1)),
       pyRound1 (qMul (qDiv (p.2 : ℚ) ((tsJobs store).length : ℚ)) 100)⟩)

/-- Result shape of `get_company_insights` entries. -/
structure CompanyEntry where
  company : String
  job_count : ℕ
  avg_salary : ℤ
  salary_range : String
deriving Repr, DecidableEq

/-- `f"${round(x):,}"`. -/
def fmtMoney (q : ℚ) : String := "$" ++ intCommas (pyRound q)

/-- `JobAnalytics.get_company_insights(limit)`: eligible records grouped
by exact `company`, ordered by job count descending, truncated to
`limit`.  The salary range collapses to `"N/A"` whenever
`min_sal and max_sal` is falsy, i.e. when either group bound is zero
(NULL cannot occur: every group is non-empty and eligible). -/
def get_company_insights (store : List Job) (limit : ℕ) : List CompanyEntry :=
  let groups := (groupsBy (fun j => j.company) (store.filter eligibleB)).map
    (fun g => (g.1, g.2.map midpoint))
  ((sortDescBy (fun a b => a.2.length < b.2.length) groups).take limit).map
    (fun g =>
      ⟨g.1, g.2.length, truthyRound (qMean g.2),
       if listMin g.2 ≠ 0 ∧ listMax g.2 ≠ 0 then
         fmtMoney (listMin g.2) ++ " - " ++ fmtMoney (listMax g.2)
       else "N/A"⟩)

/-- Result shape of `get_remote_work_trends` entries.  The group key
(`type` in the Python dict) is the raw `remote` column value, which may
be NULL. -/
structure RemoteEntry where
  remote_type : Option String
  job_count : ℕ
  percentage : ℚ
  avg_salary : ℤ
deriving Repr, DecidableEq

/-- `JobAnalytics.get_remote_work_trends()`: eligible records grouped by
exact `remote` value; the percentage denominator is the UNFILTERED total
record count (`self.db.query(Job).count()`). -/
def get_remote_work_trends (store : List Job) : List RemoteEntry :=
  let total := store.length
  sortDescBy (fun a b => a.job_count < b.job_count)
    ((groupsBy (fun j => j.remote) (store.filter eligibleB)).map
      (fun g =>
        ⟨g.1, g.2.length,
         if 0 < total then
           pyRound1 (qMul (qDiv (g.2.length : ℚ) (total : ℚ)) 100)
         else 0,
         truthyRound (qMean (g.2.map midpoint))⟩))

/-- Result shape of `get_skill_salary_impact`. -/
structure ImpactResult where
  skill : String
  average_salary : ℤ
  market_average : ℤ
  salary_difference : ℤ
  percentage_increase : ℚ
deriving Repr, DecidableEq

/-- The "jobs WITHOUT the skill" population:
`~Job.skills.ilike(f"%{skill}%")` under SQL three-valued logic, so a
record with NULL `skills` is dropped (NOT NULL is NULL), not counted as
lacking the skill. -/
def withoutJobs (store : List Job) (s : String) : List Job :=
  store.filter (fun j =>
    eligibleB j &&
      (match j.skills with
       | none => false
       | some t => !containsCI t s))

/-- `JobAnalytics.get_skill_salary_impact(base_skill)`. -/
def get_skill_salary_impact (store : List Job) (base_skill : String) : ImpactResult :=
  let with_skill := get_salary_insights store none (some base_skill)
  let without_salaries := (withoutJobs store base_skill).map midpoint
  let without_avg : ℚ :=
    if without_salaries.isEmpty then 0
    else qMean without_salaries
  let salary_difference : ℚ :=
    if 0 < without_avg then qSub (with_skill.avg_salary : ℚ) without_avg else 0
  let percentage_increase : ℚ :=
    if 0 < without_avg then pyRound1 (qMul (qDiv salary_difference without_avg) 100)
    else 0
  ⟨base_skill, with_skill.avg_salary, pyRound without_avg,
   pyRound salary_difference, percentage_increase⟩

/-- Result shape of `generate_market_summary`. -/
structure MarketSummary where
  total_jobs : ℕ
  avg_salary : ℤ
  salary_range : String
  top_skills : List String
  highest_paying_location : String
  remote_percentage : ℚ
deriving Repr, DecidableEq

/-- `f"${x:,.0f}"`: zero decimals (half-to-even) with thousands
separators. -/
def fmtComma0 (q : ℚ) : String := intCommas (pyRound q)

/-- `JobAnalytics.generate_market_summary()`. -/
def generate_market_summary (store : List Job) : MarketSummary :=
  let overall := get_salary_insights store none none
  let trends := get_remote_work_trends store
  ⟨store.length,
   overall.avg_salary,
   "$" ++ fmtComma0 overall.min_salary ++ " - $" ++ fmtComma0 overall.max_salary,
   (get_top_skills store 5).map (fun e => e.skill),
   match get_salary_by_location store with
   | [] => "N/A"
   | e :: _ => e.location,
   (((trends.filter (fun e => e.remote_type = some "Remote")).head?.map
       (fun e => e.percentage)).getD 0)⟩

/-! ### Derived populations used by the claim statements -/

/-- The eligible records of one exact company group, as midpoint salaries
(the values SQL aggregates with `min`/`max`/`avg` in
`get_company_insights`). -/
def companyMids (store : List Job) (c : String) : List ℚ :=
  ((store.filter eligibleB).filter (fun j => j.company = c)).map midpoint

/-- The baseline population of `get_skill_salary_impact`, spelled the way
the WHERE clause evaluates: eligible, `skills` non-null, and the skill
substring absent (case-insensitive). -/
def baselineJobs (store : List Job) (s : String) : List Job :=
  (store.filter eligibleB).filter (fun j =>
    match j.skills with
    | none => false
    | some t => !containsCI t s)

/-! ### Concrete stores for counterexamples, scenarios and witnesses -/

/-- Two eligible records, one of them with NULL `skills` (for C1). -/
def storeC1 : List Job :=
  [⟨"t1", "c1", "l1", some 1, some 2, some "Python", none⟩,
   ⟨"t2", "c2", "l2", some 1, some 2, none, none⟩]

/-- A single eligible record (for C1's witness). -/
def storeW1 : List Job :=
  [⟨"t1", "c1", "l1", some 80000, some 90000, some "Python", none⟩]

/-- One eligible record that mentions the same skill twice (for C2). -/
def storeC2 : List Job :=
  [⟨"t1", "c1", "l1", some 1, some 2, some "Python, Python", none⟩]

/-- A single eligible record (for C2's witness). -/
def storeW2 : List Job :=
  [⟨"t1", "c1", "l1", some 80000, some 90000, some "Python", none⟩]

/-- One eligible record with zero salary bounds (for C3). -/
def storeC3 : List Job :=
  [⟨"t1", "A", "l1", some 0, some 0, none, none⟩]

/-- A single eligible record with nonzero bounds (for C3's witness). -/
def storeW3 : List Job :=
  [⟨"t1", "A", "l1", some 100, some 200, none, none⟩]

/-- A single eligible record with NULL `skills` (for C4). -/
def storeC4 : List Job :=
  [⟨"t1", "c1", "l1", some 100, some 200, none, none⟩]

/-- A store with no eligible record (for C5's witness, empty branch). -/
def storeW5a : List Job :=
  [⟨"t1", "c1", "l1", none, none, none, none⟩]

/-- Four eligible records with midpoints 30, 10, 40, 20 (for C5's
witness: the claim's even-length median example). -/
def storeW5b : List Job :=
  [⟨"t1", "c1", "l1", some 20, some 40, none, none⟩,
   ⟨"t2", "c2", "l2", some 0, some 20, none, none⟩,
   ⟨"t3", "c3", "l3", some 30, some 50, none, none⟩,
   ⟨"t4", "c4", "l4", some 10, some 30, none, none⟩]

/-- The three-record scenario fixed by the specification (for C6). -/
def storeC6 : List Job :=
  [⟨"t1", "c1", "l1", some 80000, some 90000, some "Python, SQL", none⟩,
   ⟨"t2", "c2", "l2", some 100000, some 110000, some "Python", none⟩,
   ⟨"t3", "c3", "l3", some 60000, some 70000, some "SQL, Java", none⟩]

/-- 50 eligible records in 50 distinct remote groups plus one ineligible
record (for C7): each group's percentage is `round(100/51, 1) = 2.0`, so
the 50 rounded percentages sum to exactly `100.0` although only 50 of the
51 records are eligible. -/
def storeC7 : List Job :=
  (List.range 50).map
      (fun i => ⟨"t", "c", "l", some 1, some 2, none, some ("r" ++ Nat.repr i)⟩) ++
    [⟨"t", "c", "l", none, none, none, some "x"⟩]

/-- One eligible record in the "Remote" group plus one ineligible record
(for C7's witness). -/
def storeW7 : List Job :=
  [⟨"t1", "c1", "l1", some 1, some 2, none, some "Remote"⟩,
   ⟨"t2", "c2", "l2", none, none, none, none⟩]

end JobMarket

namespace JobMarket

/-! ### Infrastructure lemmas -/

/-- `pyRound` re-expressed through `Int.floor` and the order on `ℚ`. -/
theorem pyRound_def (q : ℚ) : pyRound q =
    if q - ⌊q⌋ < 1/2 then ⌊q⌋
    else if 1/2 < q - ⌊q⌋ then ⌊q⌋ + 1
    else if ⌊q⌋ % 2 = 0 then ⌊q⌋ else ⌊q⌋ + 1 := by
  have hh : qHalf = 1/2 := by
    rw [qHalf, Rat.divInt_eq_div]; norm_num
  simp only [pyRound, ratFloor_eq_floor, qSub_eq, hh, qLtB_iff]

theorem pyRound_ge_floor (q : ℚ) : ⌊q⌋ ≤ pyRound q := by
  rw [pyRound_def]; split_ifs <;> omega

theorem pyRound_le_floor_add_one (q : ℚ) : pyRound q ≤ ⌊q⌋ + 1 := by
  rw [pyRound_def]; split_ifs <;> omega

theorem pyRound_mono {a b : ℚ} (h : a ≤ b) : pyRound a ≤ pyRound b := by
  have hf : ⌊a⌋ ≤ ⌊b⌋ := Int.floor_mono h
  rcases eq_or_lt_of_le hf with heq | hlt
  · rw [pyRound_def, pyRound_def, ← heq]
    have h2 : a - ⌊a⌋ ≤ b - ⌊a⌋ := by linarith
    split_ifs <;> first | omega | (exfalso; linarith)
  · have h1 := pyRound_le_floor_add_one a
    have h2 := pyRound_ge_floor b
    omega

theorem pyRound_zero : pyRound 0 = 0 := by decide

theorem pyRound_nonneg {q : ℚ} (h : 0 ≤ q) : 0 ≤ pyRound q := by
  have := pyRound_mono h
  rwa [pyRound_zero] at this

theorem pyRound1_mono {a b : ℚ} (h : a ≤ b) : pyRound1 a ≤ pyRound1 b := by
  rw [pyRound1, pyRound1, qDiv_eq, qDiv_eq, qMul_eq, qMul_eq]
  have h10 : a * 10 ≤ b * 10 := by linarith
  have hc : ((pyRound (a * 10)) : ℚ) ≤ ((pyRound (b * 10)) : ℚ) := by
    exact_mod_cast pyRound_mono h10
  linarith

theorem pyRound1_zero : pyRound1 0 = 0 := by decide

theorem pyRound1_hundred : pyRound1 100 = 100 := by decide

theorem pyRound1_nonneg {q : ℚ} (h : 0 ≤ q) : 0 ≤ pyRound1 q := by
  have := pyRound1_mono h
  rwa [pyRound1_zero] at this

theorem pyRound1_le_hundred {q : ℚ} (h : q ≤ 100) : pyRound1 q ≤ 100 := by
  have := pyRound1_mono h
  rwa [pyRound1_hundred] at this

/-- The Python-truthiness round (`round(x) if x else 0`) is just `round`. -/
theorem truthyRound_eq (q : ℚ) : truthyRound q = pyRound q := by
  rcases eq_or_ne q 0 with rfl | h
  · rw [truthyRound, if_pos rfl, pyRound_zero]
  · rw [truthyRound, if_neg h]

theorem insDesc_perm {α : Type} (ltB : α → α → Bool) (x : α) (l : List α) :
    List.Perm (insDesc ltB x l) (x :: l) := by
  induction l with
  | nil => rfl
  | cons y ys ih =>
    rw [insDesc]
    split_ifs
    · exact (ih.cons y).trans (List.Perm.swap x y ys)
    · rfl

theorem sortDescBy_perm {α : Type} (ltB : α → α → Bool) (l : List α) :
    List.Perm (sortDescBy ltB l) l := by
  induction l with
  | nil => rfl
  | cons x xs ih => exact (insDesc_perm ltB x (sortDescBy ltB xs)).trans (ih.cons x)

theorem mem_sortDescBy {α : Type} {ltB : α → α → Bool} {x : α} {l : List α} :
    x ∈ sortDescBy ltB l ↔ x ∈ l :=
  (sortDescBy_perm ltB l).mem_iff

theorem pairwise_insDesc {α β : Type} [LinearOrder β] {key : α → β}
    {ltB : α → α → Bool} (H : ∀ a b, ltB a b = true ↔ key a < key b)
    (x : α) {l : List α} (hl : l.Pairwise (fun a b => key b ≤ key a)) :
    (insDesc ltB x l).Pairwise (fun a b => key b ≤ key a) := by
  induction l with
  | nil => simp [insDesc]
  | cons y ys ih =>
    rw [insDesc]
    rcases List.pairwise_cons.mp hl with ⟨hy, hys⟩
    split_ifs with hlt
    · refine List.pairwise_cons.mpr ⟨?_, ih hys⟩
      intro b hb
      rcases List.mem_cons.mp ((insDesc_perm ltB x ys).mem_iff.mp hb) with rfl | hbm
      · exact le_of_lt ((H b y).mp hlt)
      · exact hy b hbm
    · refine List.pairwise_cons.mpr ⟨?_, hl⟩
      intro b hb
      have hyx : key y ≤ key x := by
        by_contra hc
        exact hlt ((H x y).mpr (lt_of_not_le hc))
      rcases List.mem_cons.mp hb with rfl | hb2
      · exact hyx
      · exact le_trans (hy b hb2) hyx

theorem pairwise_sortDescBy {α β : Type} [LinearOrder β] {key : α → β}
    {ltB : α → α → Bool} (H : ∀ a b, ltB a b = true ↔ key a < key b)
    (l : List α) :
    (sortDescBy ltB l).Pairwise (fun a b => key b ≤ key a) := by
  induction l with
  | nil => exact List.Pairwise.nil
  | cons x xs ih => exact pairwise_insDesc H x ih

theorem notMem_dedupFirstAux {α : Type} [DecidableEq α] {a : α} {seen l : List α}
    (h : a ∈ seen) : a ∉ dedupFirstAux seen l := by
  induction l generalizing seen with
  | nil => simp [dedupFirstAux]
  | cons x xs ih =>
    rw [dedupFirstAux]
    split_ifs with hx
    · exact ih h
    · intro hmem
      rcases List.mem_cons.mp hmem with rfl | hmem'
      · exact hx h
      · exact ih (List.mem_cons_of_mem x h) hmem'

theorem nodup_dedupFirstAux {α : Type} [DecidableEq α] (seen l : List α) :
    (dedupFirstAux seen l).Nodup := by
  induction l generalizing seen with
  | nil => simp [dedupFirstAux]
  | cons x xs ih =>
    rw [dedupFirstAux]
    split_ifs with hx
    · exact ih seen
    · exact List.nodup_cons.mpr ⟨notMem_dedupFirstAux (List.mem_cons_self x seen), ih _⟩

theorem mem_of_mem_dedupFirstAux {α : Type} [DecidableEq α] {a : α} {seen l : List α}
    (h : a ∈ dedupFirstAux seen l) : a ∈ l := by
  induction l generalizing seen with
  | nil => simp [dedupFirstAux] at h
  | cons x xs ih =>
    rw [dedupFirstAux] at h
    split_ifs at h with hx
    · exact List.mem_cons_of_mem x (ih h)
    · rcases List.mem_cons.mp h with rfl | h'
      · exact List.mem_cons_self a xs
      · exact List.mem_cons_of_mem x (ih h')

theorem mem_dedupFirstAux_of_mem {α : Type} [DecidableEq α] {a : α} {seen l : List α}
    (hmem : a ∈ l) (hseen : a ∉ seen) : a ∈ dedupFirstAux seen l := by
  induction l generalizing seen with
  | nil => cases hmem
  | cons x xs ih =>
    rw [dedupFirstAux]
    split_ifs with hx
    · rcases List.mem_cons.mp hmem with rfl | h'
      · exact absurd hx hseen
      · exact ih h' hseen
    · rcases List.mem_cons.mp hmem with rfl | h'
      · exact List.mem_cons_self a _
      · rcases eq_or_ne a x with rfl | hne
        · exact List.mem_cons_self a _
        · refine List.mem_cons_of_mem x (ih h' ?_)
          intro hc
          rcases List.mem_cons.mp hc with h2 | h2
          · exact hne h2
          · exact hseen h2

theorem nodup_dedupFirst {α : Type} [DecidableEq α] (l : List α) :
    (dedupFirst l).Nodup := nodup_dedupFirstAux [] l

theorem mem_dedupFirst {α : Type} [DecidableEq α] {a : α} {l : List α} :
    a ∈ dedupFirst l ↔ a ∈ l :=
  ⟨mem_of_mem_dedupFirstAux, fun h => mem_dedupFirstAux_of_mem h (by simp)⟩

theorem sum_map_add_nat {κ : Type} (ks : List κ) (f g : κ → ℕ) :
    (ks.map (fun k => f k + g k)).sum = (ks.map f).sum + (ks.map g).sum := by
  induction ks with
  | nil => simp
  | cons k ks ih => simp [ih]; omega

theorem sum_map_ite_zero {κ : Type} [DecidableEq κ] {x : κ} {ks : List κ}
    (h : x ∉ ks) : (ks.map (fun k => if x = k then 1 else 0)).sum = 0 := by
  induction ks with
  | nil => simp
  | cons k ks ih =>
    have hne : x ≠ k := fun hc => h (hc ▸ List.mem_cons_self k ks)
    simp only [List.map_cons, List.sum_cons, if_neg hne]
    simpa using ih (fun hc => h (List.mem_cons_of_mem k hc))

theorem sum_map_ite_one {κ : Type} [DecidableEq κ] {x : κ} {ks : List κ}
    (hnd : ks.Nodup) (hmem : x ∈ ks) :
    (ks.map (fun k => if x = k then 1 else 0)).sum = 1 := by
  induction ks with
  | nil => cases hmem
  | cons k ks ih =>
    rcases List.nodup_cons.mp hnd with ⟨hk, hnd'⟩
    rcases List.mem_cons.mp hmem with rfl | h'
    · simp only [List.map_cons, List.sum_cons]
      rw [sum_map_ite_zero hk]
      simp
    · have hne : x ≠ k := fun hc => hk (hc ▸ h')
      simp only [List.map_cons, List.sum_cons, if_neg hne]
      rw [ih hnd' h']

/-- Grouping partitions: the group sizes over a nodup, covering key list
sum to the length of the grouped list. -/
theorem sum_group_sizes {α κ : Type} [DecidableEq κ] (key : α → κ) (l : List α)
    (ks : List κ) (hnd : ks.Nodup) (hcov : ∀ a ∈ l, key a ∈ ks) :
    (ks.map (fun k => (l.filter (fun a => key a = k)).length)).sum = l.length := by
  induction l with
  | nil => simp
  | cons a t ih =>
    have hstep : ∀ k : κ, ((a :: t).filter (fun b => key b = k)).length
        = (t.filter (fun b => key b = k)).length + (if key a = k then 1 else 0) := by
      intro k
      rw [List.filter_cons]
      by_cases h : key a = k <;> simp [h]
    have hmap : ks.map (fun k => ((a :: t).filter (fun b => key b = k)).length)
        = ks.map (fun k => (t.filter (fun b => key b = k)).length
            + (if key a = k then 1 else 0)) := by
      exact List.map_congr_left (fun k _ => hstep k)
    rw [hmap, sum_map_add_nat,
      ih (fun b hb => hcov b (List.mem_cons_of_mem a hb)),
      sum_map_ite_one hnd (hcov a (List.mem_cons_self a t))]
    simp

theorem length_filter_lt_of_exists_not {α : Type} {p : α → Bool} {l : List α}
    (h : ∃ a ∈ l, p a = false) : (l.filter p).length < l.length := by
  induction l with
  | nil => rcases h with ⟨a, ha, _⟩; cases ha
  | cons x xs ih =>
    rcases h with ⟨a, ha, hpa⟩
    rw [List.filter_cons]
    rcases List.mem_cons.mp ha with rfl | ha'
    · rw [if_neg (by simp [hpa])]
      exact Nat.lt_succ_of_le (List.length_filter_le p xs)
    · split_ifs
      · simpa using ih ⟨a, ha', hpa⟩
      · exact Nat.lt_succ_of_le (List.length_filter_le p xs)

/-- A string starting with a dollar sign is never the literal `"N/A"`. -/
theorem dollar_append_ne_NA (s t : String) : ("$" ++ s) ++ t ≠ "N/A" := by
  intro h
  have h2 := congrArg String.data h
  simp only [String.data_append] at h2
  simp at h2

/-- Counting over a `flatMap` is the sum of the per-element counts. -/
theorem count_flatMap {α β : Type} [BEq β] (f : α → List β) (l : List α) (b : β) :
    ((l.flatMap f).count b) = (l.map (fun a => (f a).count b)).sum := by
  induction l with
  | nil => simp
  | cons x xs ih => simp [List.flatMap_cons, List.count_append, ih]

theorem sum_map_le_length {α : Type} (l : List α) (g : α → ℕ)
    (h : ∀ a ∈ l, g a ≤ 1) : (l.map g).sum ≤ l.length := by
  induction l with
  | nil => simp
  | cons x xs ih =>
    simp only [List.map_cons, List.sum_cons, List.length_cons]
    have h1 := h x (List.mem_cons_self x xs)
    have h2 := ih (fun a ha => h a (List.mem_cons_of_mem x ha))
    omega

/-- Anatomy of a `get_top_skills` entry: its skill is one of the occurring
tokens, its count is the `Counter` occurrence count, and its salary and
percentage fields are computed from the occurrence count, the salary
sample, and the size of the (skills non-null, salary non-null) population. -/
theorem mem_get_top_skills {store : List Job} {limit : ℕ} {e : SkillEntry}
    (h : e ∈ get_top_skills store limit) :
    e.skill ∈ dedupFirst (allOccurrences store) ∧
    e.job_count = occCount store e.skill ∧
    e.avg_salary = pyRound (qMean (skillSample store e.skill)) ∧
    e.percentage = pyRound1 (qMul (qDiv ((occCount store e.skill : ℕ) : ℚ)
      (((tsJobs store).length : ℕ) : ℚ)) 100) := by
  rcases List.mem_filterMap.mp h with ⟨p, hp, hfe⟩
  by_cases hs : (skillSample store p.1).isEmpty
  · rw [if_pos hs] at hfe; cases hfe
  · rw [if_neg hs] at hfe
    injection hfe with hfe
    subst hfe
    have hp' : p ∈ (dedupFirst (allOccurrences store)).map
        (fun s => (s, occCount store s)) :=
      mem_sortDescBy.mp (List.mem_of_mem_take hp)
    rcases List.mem_map.mp hp' with ⟨s, hs', hps⟩
    subst hps
    exact ⟨hs', rfl, rfl, rfl⟩

/-- Under per-record token dedup, a skill occurs at most once per record,
so its total count is at most the population size. -/
theorem occCount_le_length {store : List Job} {s : String}
    (hnodup : ∀ j ∈ store, (skillTokens j).Nodup) :
    occCount store s ≤ (tsJobs store).length := by
  rw [occCount, allOccurrences, count_flatMap]
  apply sum_map_le_length
  intro j hj
  have hjs : j ∈ store := (List.mem_filter.mp hj).1
  exact List.nodup_iff_count_le_one.mp (hnodup j hjs) s

end JobMarket

namespace JobMarket

/-! ### The claims -/

/-- C6: on the specification's three-record scenario (skills
"Python, SQL" with salary 80000/90000, "Python" with 100000/110000,
"SQL, Java" with 60000/70000), `topSkills(10)` lists Python with
jobCount 2 and avgSalary 95000, SQL with jobCount 2 and avgSalary 75000,
and Java with jobCount 1 and avgSalary 65000. -/
theorem C6_topSkills_scenario :
    (get_top_skills storeC6 10).map (fun e => (e.skill, e.job_count, e.avg_salary)) =
      [("Python", 2, 95000), ("SQL", 2, 75000), ("Java", 1, 65000)] := by
  decide

/-- C10: on an empty store `generate_market_summary` totally evaluates and
returns zero total, zero average salary, the literal range `"$0 - $0"`
(not `"N/A"`), an empty skill list, `"N/A"` as highest-paying location and
remote percentage `0`. -/
theorem C10_marketSummary_empty :
    generate_market_summary [] =
      ⟨0, 0, "$0 - $0", [], "N/A", 0⟩ := by
  decide

/-- C9: passing an empty-string `location` and/or `skill` filter to
`salaryInsights` yields exactly the same result as omitting the filter:
the truthiness check `if location:` / `if skill:` skips both `None` and
the empty string, and an empty substring pattern would match every record
anyway. -/
theorem C9_empty_filter_identity (store : List Job) (location skill : Option String) :
    get_salary_insights store (some "") skill = get_salary_insights store none skill ∧
    get_salary_insights store location (some "") = get_salary_insights store location none := by
  have h1 : ∀ (p : String → Job → Bool), optFilter (some "") p = optFilter none p := by
    intro p; funext j; simp [optFilter]
  constructor <;> simp [get_salary_insights, insightsJobs, h1]

/-- A formatted salary range is never the literal `"N/A"`: it starts with
a dollar sign. -/
theorem fmtRange_ne_NA (a b : ℚ) : fmtMoney a ++ " - " ++ fmtMoney b ≠ "N/A" := by
  intro h
  have h2 := congrArg String.data h
  simp only [fmtMoney, String.data_append] at h2
  simp at h2

/-- C1 (counterexample): on a store with two eligible records, one of
which has NULL `skills`, the sole entry of `topSkills(10)` carries
percentage `100.0`, while the claim's formula — occurrences over the FULL
eligible-record count (2) — yields `50.0`. -/
theorem C1_counterexample :
    get_top_skills storeC1 10 = [⟨"Python", 1, 2, 100⟩] ∧
    (storeC1.filter eligibleB).length = 2 ∧
    pyRound1 (qMul (qDiv ((1 : ℚ)) ((2 : ℚ))) 100) = 50 ∧
    ((100 : ℚ) ≠ 50) := by
  decide

/-- C1 (amended): each `topSkills` entry's `percentage` equals the
skill's occurrence count divided by the number of records that are
eligible AND have a non-null `skills` field (`tsJobs`) — not the full
eligible-record count — times 100, rounded to one decimal. -/
theorem C1_topSkills_percentage (store : List Job) (limit : ℕ) (e : SkillEntry)
    (h : e ∈ get_top_skills store limit) :
    e.job_count = occCount store e.skill ∧
    e.percentage = pyRound1 (qMul (qDiv ((occCount store e.skill : ℕ) : ℚ)
      (((tsJobs store).length : ℕ) : ℚ)) 100) :=
  ⟨(mem_get_top_skills h).2.1, (mem_get_top_skills h).2.2.2⟩

theorem C1_topSkills_percentage_witness :
    (⟨"Python", 1, 85000, 100⟩ : SkillEntry).job_count = occCount storeW1 "Python" ∧
    (⟨"Python", 1, 85000, 100⟩ : SkillEntry).percentage
      = pyRound1 (qMul (qDiv ((occCount storeW1 "Python" : ℕ) : ℚ)
          (((tsJobs storeW1).length : ℕ) : ℚ)) 100) :=
  C1_topSkills_percentage storeW1 10 ⟨"Python", 1, 85000, 100⟩ (by decide)

/-- C2 (counterexample): a record whose skill list mentions "Python"
twice produces a `topSkills` entry with percentage `200.0`, outside
`[0, 100]`. -/
theorem C2_counterexample :
    get_top_skills storeC2 10 = [⟨"Python", 2, 2, 200⟩] ∧
    ¬ ((⟨"Python", 2, 2, 200⟩ : SkillEntry).percentage ≤ 100) := by
  decide

/-- C2 (amended): `topSkills(n)` returns at most `n` entries and every
percentage is non-negative; the percentage is moreover at most 100
whenever no record's trimmed token list repeats a skill (without that
proviso it can exceed 100, one mention of a skill per record being
counted once in the numerator while the record counts once in the
denominator). -/
theorem C2_topSkills_bounds (store : List Job) (limit : ℕ) :
    (get_top_skills store limit).length ≤ limit ∧
    ∀ e ∈ get_top_skills store limit,
      0 ≤ e.percentage ∧
      ((∀ j ∈ store, (skillTokens j).Nodup) → e.percentage ≤ 100) := by
  constructor
  · calc (get_top_skills store limit).length
        ≤ (mostCommon store limit).length := List.length_filterMap_le _ _
      _ ≤ limit := List.length_take_le _ _
  · intro e he
    obtain ⟨hskill, hcnt, havg, hpct⟩ := mem_get_top_skills he
    have hlen0 : 0 < (tsJobs store).length := by
      have hocc : e.skill ∈ allOccurrences store := mem_dedupFirst.mp hskill
      rcases List.mem_flatMap.mp hocc with ⟨j, hj, _⟩
      exact List.length_pos_of_mem hj
    constructor
    · rw [hpct]
      apply pyRound1_nonneg
      rw [qMul_eq, qDiv_eq]
      positivity
    · intro hnodup
      rw [hpct]
      apply pyRound1_le_hundred
      rw [qMul_eq, qDiv_eq]
      have hle : ((occCount store e.skill : ℕ) : ℚ) ≤ (((tsJobs store).length : ℕ) : ℚ) := by
        exact_mod_cast occCount_le_length hnodup
      have hpos : (0:ℚ) < (((tsJobs store).length : ℕ) : ℚ) := by exact_mod_cast hlen0
      have h1 : ((occCount store e.skill : ℕ) : ℚ) / (((tsJobs store).length : ℕ) : ℚ) ≤ 1 :=
        (div_le_one hpos).mpr hle
      linarith

theorem C2_topSkills_bounds_witness :
    (get_top_skills storeW2 10).length ≤ 10 ∧
    (0 ≤ (⟨"Python", 1, 85000, 100⟩ : SkillEntry).percentage ∧
      (⟨"Python", 1, 85000, 100⟩ : SkillEntry).percentage ≤ 100) := by
  refine ⟨(C2_topSkills_bounds storeW2 10).1, ?_, ?_⟩
  · exact ((C2_topSkills_bounds storeW2 10).2 _ (by decide)).1
  · exact ((C2_topSkills_bounds storeW2 10).2 _ (by decide)).2 (by decide)

/-- C3 (counterexample): a company group whose only record has salary
bounds 0/0 (both non-null) gets the literal `"N/A"`, not the formatted
`"$0 - $0"` the claim requires for non-null bounds. -/
theorem C3_counterexample :
    get_company_insights storeC3 15 = [⟨"A", 1, 0, "N/A"⟩] ∧
    storeC3.all eligibleB = true ∧
    (⟨"A", 1, 0, "N/A"⟩ : CompanyEntry).salary_range ≠ "$0 - $0" := by
  decide

/-- C3 (amended): a `companyInsights` entry's `salaryRange` is `"N/A"`
exactly when the group's minimum or maximum midpoint salary is ZERO
(Python truthiness of the float bounds; NULL bounds cannot occur since
each listed group holds at least one eligible record), and otherwise it
is the `"$<min> - $<max>"` rendering with thousands separators. -/
theorem C3_companyInsights_salaryRange (store : List Job) (limit : ℕ)
    (e : CompanyEntry) (h : e ∈ get_company_insights store limit) :
    (e.salary_range = "N/A" ↔
      (listMin (companyMids store e.company) = 0 ∨
       listMax (companyMids store e.company) = 0)) ∧
    (e.salary_range ≠ "N/A" →
      e.salary_range = fmtMoney (listMin (companyMids store e.company)) ++ " - " ++
        fmtMoney (listMax (companyMids store e.company))) := by
  rw [get_company_insights] at h
  rcases List.mem_map.mp h with ⟨g, hg, hge⟩
  have hg' : g ∈ (groupsBy (fun j => j.company) (store.filter eligibleB)).map
      (fun g => (g.1, g.2.map midpoint)) :=
    mem_sortDescBy.mp (List.mem_of_mem_take hg)
  rcases List.mem_map.mp hg' with ⟨g0, hg0, hgg⟩
  rw [groupsBy] at hg0
  rcases List.mem_map.mp hg0 with ⟨k, hk, hkg⟩
  subst hkg
  subst hgg
  subst hge
  have hmids : ((store.filter eligibleB).filter (fun j => j.company = k)).map midpoint
      = companyMids store k := rfl
  simp only [hmids]
  by_cases hc : listMin (companyMids store k) ≠ 0 ∧ listMax (companyMids store k) ≠ 0
  · rw [if_pos hc]
    refine ⟨⟨fun h' => absurd h' (fmtRange_ne_NA _ _), fun h' => ?_⟩, fun _ => rfl⟩
    rcases hc with ⟨h1, h2⟩
    rcases h' with h' | h' <;> contradiction
  · rw [if_neg hc]
    refine ⟨⟨fun _ => ?_, fun _ => rfl⟩, fun hne => absurd rfl hne⟩
    rcases not_and_or.mp hc with h' | h'
    · exact Or.inl (not_not.mp h')
    · exact Or.inr (not_not.mp h')

theorem C3_companyInsights_salaryRange_witness :
    ((⟨"A", 1, 150, "$150 - $150"⟩ : CompanyEntry).salary_range = "N/A" ↔
      (listMin (companyMids storeW3 "A") = 0 ∨
       listMax (companyMids storeW3 "A") = 0)) ∧
    ((⟨"A", 1, 150, "$150 - $150"⟩ : CompanyEntry).salary_range ≠ "N/A" →
      (⟨"A", 1, 150, "$150 - $150"⟩ : CompanyEntry).salary_range
        = fmtMoney (listMin (companyMids storeW3 "A")) ++ " - " ++
          fmtMoney (listMax (companyMids storeW3 "A"))) :=
  C3_companyInsights_salaryRange storeW3 15 ⟨"A", 1, 150, "$150 - $150"⟩ (by decide)

/-- C4 (counterexample): a store whose single record is eligible but has
NULL `skills` makes `skillSalaryImpact("Python")` return
`marketAverage = 0`: SQL three-valued logic drops the NULL-skills record
from `~skills ILIKE '%Python%'`, whereas the claim places it in the
baseline (which would give `round(150) = 150`). -/
theorem C4_counterexample :
    get_skill_salary_impact storeC4 "Python" = ⟨"Python", 0, 0, 0, 0⟩ ∧
    (∀ j ∈ storeC4, eligibleB j = true ∧ j.skills = none) ∧
    pyRound (qMean (storeC4.map midpoint)) = 150 ∧
    ((0 : ℤ) ≠ 150) := by
  decide

/-- C4 (amended): `skillSalaryImpact` computes `marketAverage` as the
rounded mean midpoint over eligible records whose `skills` field is
NON-NULL and does not contain the skill case-insensitively (NULL-skills
records are dropped by SQL three-valued logic, not counted as lacking the
skill); the zero-guard tests the UNROUNDED baseline mean `M > 0` (not the
rounded `marketAverage`), `salaryDifference` is
`round(averageSalary - M)` under that guard and `0` otherwise, and
`percentageIncrease` is `round((averageSalary - M) / M * 100, 1)` under
that guard and `0` otherwise. -/
theorem C4_skillSalaryImpact_eval (store : List Job) (s : String) :
    get_skill_salary_impact store s =
      (let A : ℤ := (get_salary_insights store none (some s)).avg_salary
       let M : ℚ := if baselineJobs store s = [] then 0
         else qMean ((baselineJobs store s).map midpoint)
       ⟨s, A, pyRound M,
        pyRound (if 0 < M then qSub (A : ℚ) M else 0),
        if 0 < M then pyRound1 (qMul (qDiv (qSub (A : ℚ) M) M) 100) else 0⟩) := by
  have hwb : withoutJobs store s = baselineJobs store s := by
    rw [withoutJobs, baselineJobs, List.filter_filter]
    exact List.filter_congr (fun j _ => by cases h : eligibleB j <;> simp [h])
  simp only [get_skill_salary_impact, hwb]
  by_cases hE : baselineJobs store s = []
  · rw [hE]
    rfl
  · have h1 : ¬ ((((baselineJobs store s).map midpoint).isEmpty) = true) := by
      simp [List.isEmpty_iff, hE]
    rw [if_neg h1, if_neg hE]
    have hfix : ∀ (c : Prop) (inst : Decidable c) (X M : ℚ),
        (if c then pyRound1 (qMul (qDiv (if c then X else 0) M) 100) else 0)
          = if c then pyRound1 (qMul (qDiv X M) 100) else 0 := by
      intro c inst X M
      by_cases h : c
      · rw [if_pos h, if_pos h, if_pos h]
      · rw [if_neg h, if_neg h]
    rw [hfix]

/-- C5: `salaryInsights` returns the all-zero record when the filter
matches no eligible record; otherwise `count` is the number of matched
records, `avgSalary` is the mean midpoint rounded to the nearest integer
(half to even, as Python's `round`) and `medianSalary` is the entry at
index `⌊n/2⌋` of the ascending-sorted midpoint list. -/
theorem C5_salaryInsights_stats (store : List Job) (location skill : Option String) :
    (insightsJobs store location skill = [] →
      get_salary_insights store location skill = ⟨0, 0, 0, 0, 0⟩) ∧
    (insightsJobs store location skill ≠ [] →
      (get_salary_insights store location skill).count
          = (insightsJobs store location skill).length ∧
      (get_salary_insights store location skill).avg_salary
          = pyRound (qMean ((insightsJobs store location skill).map midpoint)) ∧
      (get_salary_insights store location skill).median_salary
          = (sortQAsc ((insightsJobs store location skill).map midpoint)).getD
              (((insightsJobs store location skill).map midpoint).length / 2) 0) := by
  constructor
  · intro h
    simp only [get_salary_insights]
    rw [if_pos (by simp [h])]
  · intro h
    simp only [get_salary_insights]
    rw [if_neg (by simp [List.isEmpty_iff, h])]
    refine ⟨rfl, rfl, ?_⟩
    simp only [List.length_map]

theorem C5_salaryInsights_stats_witness :
    get_salary_insights storeW5a (some "x") none = ⟨0, 0, 0, 0, 0⟩ ∧
    (get_salary_insights storeW5b none none).median_salary = 30 ∧
    (get_salary_insights storeW5b none none).avg_salary = 25 := by
  refine ⟨(C5_salaryInsights_stats storeW5a (some "x") none).1 (by decide), ?_, ?_⟩
  · rw [((C5_salaryInsights_stats storeW5b none none).2 (by decide)).2.2]
    decide
  · rw [((C5_salaryInsights_stats storeW5b none none).2 (by decide)).2.1]
    decide

set_option maxRecDepth 8000 in
/-- C7 (counterexample): on a 51-record store — 50 eligible records in 50
distinct remote groups and one ineligible record — every group's
percentage rounds up from `100/51 ≈ 1.96` to `2.0`, so the returned
percentages sum to exactly `100`, not strictly less than `100`. -/
theorem C7_counterexample :
    (storeC7.filter (fun j => !eligibleB j)).length = 1 ∧
    qSum ((get_remote_work_trends storeC7).map (fun e => e.percentage)) = 100 ∧
    ¬ (qSum ((get_remote_work_trends storeC7).map (fun e => e.percentage)) < 100) := by
  refine ⟨by decide, by decide, ?_⟩
  intro hlt
  rw [(by decide : qSum ((get_remote_work_trends storeC7).map (fun e => e.percentage))
      = 100)] at hlt
  exact lt_irrefl _ hlt

/-- C7 (amended): each `remoteWorkTrends` entry's percentage is
`round(jobCount / totalAllJobsCount * 100, 1)` with the UNFILTERED record
count as denominator; when an ineligible record exists the group job
counts sum to strictly less than the total record count (so the exact
ratios sum below 100), but the ROUNDED percentages may total 100 or
more. -/
theorem C7_remoteTrends_percentage (store : List Job) :
    (∀ e ∈ get_remote_work_trends store,
      e.percentage = pyRound1 (qMul (qDiv ((e.job_count : ℕ) : ℚ)
        ((store.length : ℕ) : ℚ)) 100)) ∧
    ((∃ j ∈ store, eligibleB j = false) →
      ((get_remote_work_trends store).map (fun e => e.job_count)).sum < store.length) := by
  constructor
  · intro e he
    simp only [get_remote_work_trends] at he
    have he' := mem_sortDescBy.mp he
    rcases List.mem_map.mp he' with ⟨g, hg, hge⟩
    rw [groupsBy] at hg
    rcases List.mem_map.mp hg with ⟨k, hk, hkg⟩
    subst hkg
    subst hge
    have hk' : k ∈ (store.filter eligibleB).map (fun j => j.remote) :=
      mem_dedupFirst.mp hk
    rcases List.mem_map.mp hk' with ⟨j, hj, _⟩
    have hjs : j ∈ store := (List.mem_filter.mp hj).1
    have hpos : 0 < store.length := List.length_pos_of_mem hjs
    simp only [if_pos hpos]
  · rintro ⟨j, hj, hjne⟩
    have hlt : (store.filter eligibleB).length < store.length :=
      length_filter_lt_of_exists_not ⟨j, hj, hjne⟩
    have hsum : ((get_remote_work_trends store).map (fun e => e.job_count)).sum
        = (store.filter eligibleB).length := by
      simp only [get_remote_work_trends]
      rw [List.Perm.sum_eq (List.Perm.map _ (sortDescBy_perm _ _))]
      rw [List.map_map, groupsBy, List.map_map]
      exact sum_group_sizes (fun j => j.remote) (store.filter eligibleB) _
        (nodup_dedupFirst _)
        (fun a ha => mem_dedupFirst.mpr (List.mem_map_of_mem _ ha))
    rw [hsum]
    exact hlt

theorem C7_remoteTrends_percentage_witness :
    ((⟨some "Remote", 1, 50, 2⟩ : RemoteEntry).percentage
        = pyRound1 (qMul (qDiv (((⟨some "Remote", 1, 50, 2⟩ : RemoteEntry).job_count : ℕ) : ℚ)
            ((storeW7.length : ℕ) : ℚ)) 100)) ∧
    ((get_remote_work_trends storeW7).map (fun e => e.job_count)).sum < storeW7.length := by
  constructor
  · exact (C7_remoteTrends_percentage storeW7).1 ⟨some "Remote", 1, 50, 2⟩ (by decide)
  · exact (C7_remoteTrends_percentage storeW7).2
      ⟨⟨"t2", "c2", "l2", none, none, none, none⟩, by decide, by decide⟩

/-- C8: the sequence returned by `salaryByLocation` is non-increasing in
`avgSalary`: the records are sorted by exact average midpoint salary
descending, and rounding is monotone. -/
theorem C8_salaryByLocation_sorted (store : List Job) :
    List.Chain' (fun a b => b.avg_salary ≤ a.avg_salary)
      (get_salary_by_location store) := by
  simp only [get_salary_by_location]
  have hpw := @pairwise_sortDescBy (String × List ℚ) ℚ _ (fun g => qMean g.2)
      (fun a b => qLtB (qMean a.2) (qMean b.2)) (fun a b => qLtB_iff _ _)
      ((groupsBy (fun j => j.location) (store.filter eligibleB)).map
        (fun g => (g.1, g.2.map midpoint)))
  refine List.Pairwise.chain' (List.Pairwise.map _ (fun a b hab => ?_) hpw)
  show truthyRound (qMean b.2) ≤ truthyRound (qMean a.2)
  rw [truthyRound_eq, truthyRound_eq]
  exact pyRound_mono hab

end JobMarket

namespace JobMarket

example : pyRound (qDiv 3 2) = 2 := by decide
example : pyRound (qDiv 1 2) = 0 := by decide
example : pyRound (qDiv (-3) 2) = -2 := by decide
example : pyRound1 (qDiv 200 3) = qDiv 667 10 := by decide
example : natCommas 85000 = "85,000" := by decide
example : skillTokens ⟨"t", "c", "l", none, none, some "Python, SQL", none⟩ = ["Python", "SQL"] := by decide
example : containsCI "Py, sql" "PY" = true := by decide
example : midpoint ⟨"t", "c", "l", some 80000, some 90000, none, none⟩ = 85000 := by decide

end JobMarket
